import Mathlib

/-!
Shallow embedding of the hyloclo stamp library (`src/lib.rs`).

The source is a Snowflake-style 64-bit ID packer: a generation tag, a
42-bit time field and a 16-bit counter field packed into one `u64`.
All Rust `u64` arithmetic is modelled on `Nat` with explicit `% 2 ^ 64`
wrapping (release-mode wrapping semantics, as the spec's §7 documents);
the wrapping subtraction `a - b` on `u64` becomes `(a + 2 ^ 64 - b) % 2 ^ 64`.
-/

set_option maxRecDepth 4000

namespace Hyloclo

/-- Constant `CURRENT_GENERATION` from the source. -/
def CURRENT_GENERATION : Nat := 0

/-- Constant `GENERATION_BITS` from the source. -/
def GENERATION_BITS : Nat := 6

/-- Constant `TIME_BITS` from the source. -/
def TIME_BITS : Nat := 42

/-- Constant `COUNTER_BITS` from the source. -/
def COUNTER_BITS : Nat := 16

/-- Constant `SECOND_EPOCH`: difference between 2020-01-01T00:00:00Z and the Unix epoch. -/
def SECOND_EPOCH : Nat := 1577836800

/-- Constant `TIME_SHIFT_BITS` from the source. -/
def TIME_SHIFT_BITS : Nat := 10

/-- Constant `SEC_IN_NANOS` from the source. -/
def SEC_IN_NANOS : Nat := 1000000000

/-- Constant `TIME_MASK = ((1 << TIME_BITS) - 1) << COUNTER_BITS` (no overflow at these widths). -/
def TIME_MASK : Nat := ((1 <<< TIME_BITS) - 1) <<< COUNTER_BITS

/-- Constant `GENERATION_IN_POSITION = CURRENT_GENERATION << (TIME_BITS + COUNTER_BITS)`. -/
def GENERATION_IN_POSITION : Nat := CURRENT_GENERATION <<< (TIME_BITS + COUNTER_BITS)

/-- The compile-time constant check from the source:
`GENERATION_BITS + TIME_BITS + COUNTER_BITS == 64`. -/
theorem field_widths_sum : GENERATION_BITS + TIME_BITS + COUNTER_BITS = 64 := rfl

/-- Function `stamp_time` from the source:
```
let shifted_secs = secs << TIME_SHIFT_BITS;
let shifted_nanos = nanos << TIME_SHIFT_BITS;
let in_position = (shifted_secs + (shifted_nanos - SEC_IN_NANOS)) << COUNTER_BITS;
GENERATION_IN_POSITION | (in_position & TIME_MASK)
```
with every `u64` operation made wrapping explicitly: each shift and the
addition wrap modulo `2 ^ 64`, and the wrapping subtraction
`shifted_nanos - SEC_IN_NANOS` is `(shifted_nanos + 2 ^ 64 - SEC_IN_NANOS) % 2 ^ 64`. -/
def stamp_time (secs nanos : Nat) : Nat :=
  let shifted_secs := (secs <<< TIME_SHIFT_BITS) % 2 ^ 64
  let shifted_nanos := (nanos <<< TIME_SHIFT_BITS) % 2 ^ 64
  let in_position :=
    (((shifted_secs + ((shifted_nanos + 2 ^ 64 - SEC_IN_NANOS) % 2 ^ 64)) % 2 ^ 64)
      <<< COUNTER_BITS) % 2 ^ 64
  GENERATION_IN_POSITION ||| (in_position &&& TIME_MASK)

/-- Masking a shifted-by-16 value with `TIME_MASK` keeps exactly the low 42 bits
of the pre-shift value, in field position. -/
theorem land_time_mask (c : Nat) :
    ((c <<< 16) % 2 ^ 64) &&& TIME_MASK = (c % 2 ^ 42) <<< 16 := by
  have hmask : TIME_MASK = (2 ^ 42 - 1) <<< 16 := by decide
  apply Nat.eq_of_testBit_eq
  intro i
  rw [hmask]
  simp only [Nat.testBit_and, Nat.testBit_mod_two_pow, Nat.testBit_shiftLeft,
    Nat.testBit_two_pow_sub_one, ge_iff_le]
  by_cases h16 : 16 ≤ i
  · by_cases h42 : i - 16 < 42
    · have h64 : i < 64 := by omega
      simp [h16, h42, h64]
    · simp [h16, h42]
  · simp [h16]

/-- Arithmetic characterisation of `stamp_time`: the packed stamp is the value
`secs·2^10 + nanos·2^10 − 10^9` (taken modulo `2^42`, with the subtraction
wrapping modulo `2^64`, i.e. represented as adding `2^64 − 10^9`), placed in
bits 16‥57; the generation field contributes nothing since the generation is 0. -/
theorem stamp_time_eq_arith (secs nanos : Nat) :
    stamp_time secs nanos =
      (secs * 2 ^ 10 + nanos * 2 ^ 10 + (2 ^ 64 - SEC_IN_NANOS)) % 2 ^ 42 * 2 ^ 16 := by
  simp only [stamp_time, COUNTER_BITS, TIME_SHIFT_BITS]
  rw [land_time_mask]
  simp only [GENERATION_IN_POSITION, CURRENT_GENERATION, TIME_BITS, COUNTER_BITS,
    Nat.zero_shiftLeft, Nat.zero_or, Nat.shiftLeft_eq, Nat.zero_mul, SEC_IN_NANOS]
  omega

/-- Structure `Inst` from the source: a point in monotonic time. -/
structure Inst where
  secs : Nat
  nanos : Nat
deriving DecidableEq

/-- Structure `Stamp` from the source: the packed 64-bit identifier
(a tuple struct `Stamp(u64)`). -/
structure Stamp where
  val : Nat
deriving DecidableEq

/-- Constructor `Inst::new` from the source. -/
def Inst.new (secs nanos : Nat) : Inst :=
  ⟨secs, nanos⟩

/-- Constructor `Inst::zero` from the source. -/
def Inst.zero : Inst :=
  Inst.new 0 0

/-- Method `Inst::stamp` from the source: consume the instant into a stamp. -/
def Inst.stamp (self : Inst) : Stamp :=
  ⟨stamp_time self.secs self.nanos⟩

/-- Raw clock reading `nix::sys::time::TimeSpec`: signed seconds and
nanoseconds components, as returned by `clock_gettime`. -/
structure TimeSpec where
  tv_sec : Int
  tv_nsec : Int
deriving DecidableEq

/-- Enum `Error` from the source. -/
inductive Error where
  | NixError (errno : Int)
  | NegativeTimeSpec (tspec : TimeSpec)
deriving DecidableEq

/-- Structure `MonotonicClock` from the source: records the `Inst` at which it
was initialized. -/
structure MonotonicClock where
  init : Inst

/-- Method `MonotonicClock::tick` from the source. The external
`clock_gettime(CLOCK_BOOTTIME)` call is modelled as an explicit input: either
an OS errno (the `?` operator converts it into `Error::NixError`) or a raw
`TimeSpec` reading, which is rejected with `Error::NegativeTimeSpec` when
either component is negative and otherwise cast to unsigned and wrapped in an
`Inst`. -/
def MonotonicClock.tick (reading : Except Int TimeSpec) : Except Error Inst :=
  match reading with
  | Except.error errno => Except.error (Error.NixError errno)
  | Except.ok tspec =>
    let secs := tspec.tv_sec
    let nanos := tspec.tv_nsec
    if secs < 0 ∨ nanos < 0 then
      Except.error (Error.NegativeTimeSpec tspec)
    else
      Except.ok (Inst.new secs.toNat nanos.toNat)

/-- Trait `TimeSource` from the source: `tick` is an associated function (it
takes no `self`); its interaction with the outside world is modelled by an
explicit environment input of type `ρ`. An implementation for a type `T` is a
value of this structure. -/
structure TimeSource (T : Type) (ρ : Type) where
  tick : ρ → Except Error Inst

/-- Implementation `impl TimeSource for MonotonicClock` from the source. -/
def MonotonicClock.timeSource : TimeSource MonotonicClock (Except Int TimeSpec) :=
  ⟨MonotonicClock.tick⟩

/-- Structure `AtomicClock<T>` from the source: stores a `source` field. -/
structure AtomicClock (T : Type) where
  source : T

/-- Constructor `AtomicClock::with_source` from the source. -/
def AtomicClock.with_source {T : Type} (source : T) : AtomicClock T :=
  ⟨source⟩

/-- Method `AtomicClock::try_now` from the source: the body is `T::tick()` — it
delegates to the trait's associated function and never reads `self.source`. -/
def AtomicClock.try_now {T ρ : Type} (ts : TimeSource T ρ) (_self : AtomicClock T)
    (env : ρ) : Except Error Inst :=
  ts.tick env

/-- Method `AtomicClock::now` from the source: `self.try_now().unwrap()`; the
abort on `Err` is modelled as `Option.none`. -/
def AtomicClock.now {T ρ : Type} (ts : TimeSource T ρ) (self : AtomicClock T)
    (env : ρ) : Option Inst :=
  (AtomicClock.try_now ts self env).toOption

/-- C1: the claimed monotonicity fails on the code. With A = (0, 999999999) and
B = (1, 999999998): both nanosecond fields lie in [0, 10^9); B is later than A
by 10^9 − 1 ≥ 1024 nanoseconds; both combined time values lie inside the 42-bit
field, yet the stamps are equal instead of strictly increasing — and at
B = (1, 999999997), still later than A by well over 1024 nanoseconds, the stamp
strictly decreases. The cause: `stamp_time` weighs one nanosecond as much as
one second (both contribute `2^10` to the combined value). -/
theorem stamp_time_not_monotonic :
    999999999 < 1000000000 ∧ 999999998 < 1000000000
      ∧ (0 * 1000000000 + 999999999) + 1024 ≤ 1 * 1000000000 + 999999998
      ∧ (0 * 1000000000 + 999999999) + 1024 ≤ 1 * 1000000000 + 999999997
      ∧ 0 * 1024 + (999999999 * 1024 - 1000000000) < 2 ^ 42
      ∧ 1 * 1024 + (999999998 * 1024 - 1000000000) < 2 ^ 42
      ∧ stamp_time 0 999999999 = stamp_time 1 999999998
      ∧ stamp_time 1 999999997 < stamp_time 0 999999999 := by
  decide

/-- C2: `stamp_time 0 0` is well-defined under the wrapping u64 semantics the
code runs with: the intermediate `0 − SEC_IN_NANOS` wraps to `2^64 − 10^9`
(fixed-width wraparound, no abort), the masked result is `(2^42 − 10^9)·2^16`,
and `stamp_time` is total with its output in u64 range on every input — encode
has no error path. -/
theorem stamp_time_zero_zero_defined :
    stamp_time 0 0 = (2 ^ 42 - SEC_IN_NANOS) * 2 ^ 16
      ∧ (0 + 2 ^ 64 - SEC_IN_NANOS) % 2 ^ 64 = 2 ^ 64 - SEC_IN_NANOS
      ∧ ∀ secs nanos : Nat, stamp_time secs nanos < 2 ^ 64 := by
  refine ⟨by decide, by decide, ?_⟩
  intro s n
  rw [stamp_time_eq_arith]
  have h : (s * 2 ^ 10 + n * 2 ^ 10 + (2 ^ 64 - SEC_IN_NANOS)) % 2 ^ 42 < 2 ^ 42 :=
    Nat.mod_lt _ (by norm_num)
  omega

/-- Encode procedure written from the spec's §4.1 words (for the refinement
claim C3): shift seconds and nanoseconds left by `time_shift_bits`, combine as
`shifted_seconds + (shifted_nanoseconds − nanos_per_second)`, shift the
combined value left by `counter_bits`, mask with `time_mask`, and OR with
`generation_in_position`; the raw seconds value is used as-is (no epoch
subtraction), and all arithmetic wraps modulo `2^64`. -/
def encode_spec (seconds nanoseconds : Nat) : Nat :=
  let shifted_seconds := (seconds <<< TIME_SHIFT_BITS) % 2 ^ 64
  let shifted_nanoseconds := (nanoseconds <<< TIME_SHIFT_BITS) % 2 ^ 64
  let combined :=
    (shifted_seconds + ((shifted_nanoseconds + 2 ^ 64 - SEC_IN_NANOS) % 2 ^ 64)) % 2 ^ 64
  let positioned := (combined <<< COUNTER_BITS) % 2 ^ 64
  GENERATION_IN_POSITION ||| (positioned &&& TIME_MASK)

/-- C3: `stamp_time` implements exactly the spec's six encode steps applied to
the raw seconds value; and indeed no `SECOND_EPOCH` subtraction happens before
packing — encoding the instant `(SECOND_EPOCH, 0)` differs from encoding the
epoch-adjusted instant `(SECOND_EPOCH − SECOND_EPOCH, 0)`. -/
theorem stamp_time_eq_encode_spec :
    (∀ secs nanos : Nat, stamp_time secs nanos = encode_spec secs nanos)
      ∧ stamp_time SECOND_EPOCH 0 ≠ stamp_time (SECOND_EPOCH - SECOND_EPOCH) 0 :=
  ⟨fun _ _ => rfl, by decide⟩

/-- C4: field isolation. For every input, the top `GENERATION_BITS` bits of the
stamp hold exactly the fixed generation constant in position, and the low
`COUNTER_BITS` bits are always zero. -/
theorem stamp_time_field_isolation (secs nanos : Nat) :
    stamp_time secs nanos / 2 ^ (TIME_BITS + COUNTER_BITS) * 2 ^ (TIME_BITS + COUNTER_BITS)
        = GENERATION_IN_POSITION
      ∧ stamp_time secs nanos % 2 ^ COUNTER_BITS = 0 := by
  simp only [stamp_time_eq_arith, TIME_BITS, COUNTER_BITS, GENERATION_IN_POSITION,
    CURRENT_GENERATION, Nat.zero_shiftLeft]
  have h : (secs * 2 ^ 10 + nanos * 2 ^ 10 + (2 ^ 64 - SEC_IN_NANOS)) % 2 ^ 42 < 2 ^ 42 :=
    Nat.mod_lt _ (by norm_num)
  constructor <;> omega

/-- C5: the realistic example `stamp_time 1700000000 500000000`: the combined
pre-shift value is nonzero and strictly below `2^42`, masking it (in position)
with `TIME_MASK` discards nothing, and the stamp is exactly that combined value
shifted into the time field. -/
theorem stamp_time_realistic_example :
    0 < 1700000000 * 1024 + (500000000 * 1024 - 1000000000)
      ∧ 1700000000 * 1024 + (500000000 * 1024 - 1000000000) < 2 ^ 42
      ∧ ((1700000000 * 1024 + (500000000 * 1024 - 1000000000)) * 2 ^ 16) &&& TIME_MASK
          = (1700000000 * 1024 + (500000000 * 1024 - 1000000000)) * 2 ^ 16
      ∧ stamp_time 1700000000 500000000
          = (1700000000 * 1024 + (500000000 * 1024 - 1000000000)) * 2 ^ 16 := by
  decide

/-- C6: when the underlying clock returns a reading whose seconds or
nanoseconds component is negative, `MonotonicClock::tick` fails with
`NegativeTimeSpec` carrying the raw reading; an `Inst` is produced exactly
when both components are non-negative. -/
theorem tick_negative_reading (tspec : TimeSpec) :
    (tspec.tv_sec < 0 ∨ tspec.tv_nsec < 0 →
        MonotonicClock.tick (Except.ok tspec) = Except.error (Error.NegativeTimeSpec tspec))
      ∧ ((∃ inst, MonotonicClock.tick (Except.ok tspec) = Except.ok inst) ↔
          0 ≤ tspec.tv_sec ∧ 0 ≤ tspec.tv_nsec) := by
  constructor
  · intro h
    simp [MonotonicClock.tick, h]
  · constructor
    · rintro ⟨inst, hinst⟩
      by_cases h : tspec.tv_sec < 0 ∨ tspec.tv_nsec < 0
      · simp [MonotonicClock.tick, h] at hinst
      · omega
    · rintro ⟨h1, h2⟩
      refine ⟨Inst.new tspec.tv_sec.toNat tspec.tv_nsec.toNat, ?_⟩
      simp [MonotonicClock.tick]
      omega

/-- Witness for C6 at the spec's example reading (secs = −1, nanos = 0). -/
theorem tick_negative_reading_witness :
    MonotonicClock.tick (Except.ok ⟨-1, 0⟩) = Except.error (Error.NegativeTimeSpec ⟨-1, 0⟩) :=
  (tick_negative_reading ⟨-1, 0⟩).1 (Or.inl (by decide))

/-- C7: `stamp_time` is deterministic — two calls with identical (seconds,
nanoseconds) arguments yield identical outputs; the function is pure, with no
hidden state influencing the result. -/
theorem stamp_time_deterministic (s₁ n₁ s₂ n₂ : Nat) (hs : s₁ = s₂) (hn : n₁ = n₂) :
    stamp_time s₁ n₁ = stamp_time s₂ n₂ := by
  rw [hs, hn]

/-- Witness for C7 at a concrete input. -/
theorem stamp_time_deterministic_witness :
    stamp_time 1700000000 500000000 = stamp_time 1700000000 500000000 :=
  stamp_time_deterministic 1700000000 500000000 1700000000 500000000 rfl rfl

/-- C8: one nanosecond carries the same weight as one second in the packed
value — trading one second for one nanosecond leaves the stamp unchanged — and
consequently an instant later in real time can encode to a strictly smaller
stamp: (1, 999999990) is later than (0, 999999999) by almost a full second,
yet its stamp is smaller. -/
theorem stamp_time_second_nano_equal_weight :
    (∀ secs nanos : Nat, secs < 2 ^ 64 - 1 → 1 ≤ nanos →
        stamp_time (secs + 1) (nanos - 1) = stamp_time secs nanos)
      ∧ 0 * 1000000000 + 999999999 < 1 * 1000000000 + 999999990
      ∧ stamp_time 1 999999990 < stamp_time 0 999999999 := by
  refine ⟨?_, by decide, by decide⟩
  intro s n _ hn
  simp only [stamp_time_eq_arith, SEC_IN_NANOS]
  omega

/-- Witness for C8: applying the equal-weight identity at secs = 3, nanos = 5. -/
theorem stamp_time_second_nano_equal_weight_witness :
    stamp_time (3 + 1) (5 - 1) = stamp_time 3 5 :=
  stamp_time_second_nano_equal_weight.1 3 5 (by norm_num) (by norm_num)

/-- C9: stamps are periodic in the seconds argument with period `2^32`: the
42-bit time mask keeps only `secs · 2^10 mod 2^42`, so adding `2^32` seconds
leaves the stamp unchanged; in particular the distinct valid instants (0, 0)
and (2^32, 0) collide on the same stamp. -/
theorem stamp_time_periodic_in_secs :
    (∀ secs nanos : Nat, stamp_time (secs + 2 ^ 32) nanos = stamp_time secs nanos)
      ∧ stamp_time (2 ^ 32) 0 = stamp_time 0 0 := by
  refine ⟨?_, by decide⟩
  intro s n
  simp only [stamp_time_eq_arith, SEC_IN_NANOS]
  omega

/-- C10: `AtomicClock`'s result is independent of the wrapped source value: for
any two `AtomicClock<T>` values — in particular any two built by `with_source`
from different sources — `try_now` (and `now`) perform the identical
computation `T::tick()`; the stored `source` field is never read. -/
theorem atomic_clock_source_independent (T ρ : Type) (ts : TimeSource T ρ)
    (a b : AtomicClock T) (s₁ s₂ : T) (env : ρ) :
    AtomicClock.try_now ts a env = AtomicClock.try_now ts b env
      ∧ AtomicClock.now ts a env = AtomicClock.now ts b env
      ∧ AtomicClock.try_now ts (AtomicClock.with_source s₁) env
          = AtomicClock.try_now ts (AtomicClock.with_source s₂) env
      ∧ AtomicClock.try_now ts a env = ts.tick env :=
  ⟨rfl, rfl, rfl, rfl⟩

end Hyloclo
